import Mathlib

/-!
Shallow embedding of the analytics kernel of the hyperliquid-analytics-dashboard
repository (Python), together with proofs settling the frozen claims about it.

Numeric values are modelled by exact rationals (`ℚ`); Python strings by `String`;
fallible queries by `Option`. Each definition mirrors one Python function or
dataclass of `src/backend/...`, keeping the source's names where Lean allows it.
-/

namespace HLDash

/-! ## Slippage estimator (`src/backend/slippage_estimator.py`) -/

/-- Model of `slippage_estimator.OrderBookLevel`: price, base size, USD notional. -/
structure SlipLevel where
  price : ℚ
  size : ℚ
  total_usd : ℚ
deriving DecidableEq, Repr

/-- Model of `slippage_estimator.SlippageEstimate`. -/
structure SlippageEstimate where
  trade_size_usd : ℚ
  side : String
  avg_fill_price : ℚ
  best_price : ℚ
  slippage_bps : ℚ
  spread_bps : ℚ
  fee_bps : ℚ
  round_trip_cost_bps : ℚ
  is_feasible : Bool
  liquidity_used_pct : ℚ
deriving DecidableEq, Repr

/-- The walk loop shared by `estimate_buy` and `estimate_sell`: consume levels in
order, at each level filling `min (S - filled) level.total_usd`; stop once
`filled ≥ S`. Returns `(total_usd_filled, total_notional)`. -/
def slipWalk (S : ℚ) : List SlipLevel → ℚ → ℚ → ℚ × ℚ
  | [], filled, notional => (filled, notional)
  | l :: ls, filled, notional =>
    if S ≤ filled then (filled, notional)
    else
      slipWalk S ls (filled + min (S - filled) l.total_usd)
        (notional + min (S - filled) l.total_usd * l.price)

/-- The list of levels the walk of `slipWalk` enters (the consumed levels). -/
def consumedLevels (S : ℚ) : List SlipLevel → ℚ → List SlipLevel
  | [], _ => []
  | l :: ls, filled =>
    if S ≤ filled then []
    else l :: consumedLevels S ls (filled + min (S - filled) l.total_usd)

/-- Model of `SlippageEstimator._empty_estimate`. -/
def empty_estimate (taker_fee_bps trade_size_usd : ℚ) (side : String)
    (best_price spread_bps : ℚ) : SlippageEstimate :=
  { trade_size_usd := trade_size_usd
    side := side
    avg_fill_price := best_price
    best_price := best_price
    slippage_bps := 0
    spread_bps := spread_bps
    fee_bps := taker_fee_bps
    round_trip_cost_bps := spread_bps + 2 * taker_fee_bps
    is_feasible := false
    liquidity_used_pct := 100 }

/-- Model of `SlippageEstimator.estimate_buy` (walk the asks; feasibility allows a
1% shortfall; VWAP falls back to `best_ask` when nothing was filled). -/
def estimate_buy (taker_fee_bps : ℚ) (asks : List SlipLevel)
    (trade_size_usd best_ask spread_bps : ℚ) : SlippageEstimate :=
  if asks.isEmpty ∨ trade_size_usd ≤ 0 then
    empty_estimate taker_fee_bps trade_size_usd "buy" best_ask spread_bps
  else
    let w := slipWalk trade_size_usd asks 0 0
    let total_liquidity_usd := (asks.map SlipLevel.total_usd).sum
    let is_feasible : Bool := decide (trade_size_usd * (99 / 100) ≤ w.1)
    let avg_fill_price := if 0 < w.1 then w.2 / w.1 else best_ask
    let slippage_bps := ((avg_fill_price - best_ask) / best_ask) * 10000
    { trade_size_usd := trade_size_usd
      side := "buy"
      avg_fill_price := avg_fill_price
      best_price := best_ask
      slippage_bps := slippage_bps
      spread_bps := spread_bps
      fee_bps := taker_fee_bps
      round_trip_cost_bps := spread_bps + slippage_bps + 2 * taker_fee_bps
      is_feasible := is_feasible
      liquidity_used_pct :=
        if 0 < total_liquidity_usd then w.1 / total_liquidity_usd * 100 else 100 }

/-- Model of `SlippageEstimator.estimate_sell` (walk the bids; slippage sign is
flipped relative to the buy side). -/
def estimate_sell (taker_fee_bps : ℚ) (bids : List SlipLevel)
    (trade_size_usd best_bid spread_bps : ℚ) : SlippageEstimate :=
  if bids.isEmpty ∨ trade_size_usd ≤ 0 then
    empty_estimate taker_fee_bps trade_size_usd "sell" best_bid spread_bps
  else
    let w := slipWalk trade_size_usd bids 0 0
    let total_liquidity_usd := (bids.map SlipLevel.total_usd).sum
    let is_feasible : Bool := decide (trade_size_usd * (99 / 100) ≤ w.1)
    let avg_fill_price := if 0 < w.1 then w.2 / w.1 else best_bid
    let slippage_bps := ((best_bid - avg_fill_price) / best_bid) * 10000
    { trade_size_usd := trade_size_usd
      side := "sell"
      avg_fill_price := avg_fill_price
      best_price := best_bid
      slippage_bps := slippage_bps
      spread_bps := spread_bps
      fee_bps := taker_fee_bps
      round_trip_cost_bps := spread_bps + slippage_bps + 2 * taker_fee_bps
      is_feasible := is_feasible
      liquidity_used_pct :=
        if 0 < total_liquidity_usd then w.1 / total_liquidity_usd * 100 else 100 }

/-! ## Depth decay (`src/backend/analytics/depth_decay.py`) -/

/-- Model of `depth_decay.DepthDecayStats` (the fields the status properties read). -/
structure DepthDecayStats where
  bid_decay_percent : ℚ
  ask_decay_percent : ℚ
  window_seconds : ℚ
  current_bid_depth : ℚ
  current_ask_depth : ℚ
  reference_bid_depth : ℚ
  reference_ask_depth : ℚ
deriving DecidableEq, Repr

/-- Model of the `DepthDecayStats.bid_status` property. -/
def DepthDecayStats.bid_status (s : DepthDecayStats) : String :=
  if 30 < s.bid_decay_percent then "Critical"
  else if 15 < s.bid_decay_percent then "High"
  else if 5 < s.bid_decay_percent then "Medium"
  else "OK"

/-- Model of the `DepthDecayStats.ask_status` property. -/
def DepthDecayStats.ask_status (s : DepthDecayStats) : String :=
  if 30 < s.ask_decay_percent then "Critical"
  else if 15 < s.ask_decay_percent then "High"
  else if 5 < s.ask_decay_percent then "Medium"
  else "OK"

/-! ## Candle aggregator (`src/backend/analytics/candle_aggregator.py`) -/

/-- Model of `candle_aggregator.OHLCV` (the Python field `open` is a Lean keyword,
so it is rendered `open_`). -/
structure OHLCV where
  timestamp_ms : ℚ
  open_ : ℚ
  high : ℚ
  low : ℚ
  close : ℚ
  volume : ℚ
  n_trades : ℕ
deriving DecidableEq, Repr

/-- Model of `candle_aggregator.aggregate_candles`; the Python function raises on
an empty list, rendered here as `none`. -/
def aggregate_candles (candles : List OHLCV) : Option OHLCV :=
  match candles with
  | [] => none
  | c :: cs =>
    some
      { timestamp_ms := c.timestamp_ms
        open_ := c.open_
        high := (cs.map OHLCV.high).foldl max c.high
        low := (cs.map OHLCV.low).foldl min c.low
        close := (cs.getLastD c).close
        volume := ((c :: cs).map OHLCV.volume).sum
        n_trades := ((c :: cs).map OHLCV.n_trades).sum }

/-- True ranges of consecutive candle pairs, as computed inside
`CandleAggregator._calculate_atr`: for each i ≥ 1,
`max (high_i - low_i) (max |high_i - close_(i-1)| |low_i - close_(i-1)|)`. -/
def trueRanges : List OHLCV → List ℚ
  | c0 :: c1 :: rest =>
    max (c1.high - c1.low) (max |c1.high - c0.close| |c1.low - c0.close|)
      :: trueRanges (c1 :: rest)
  | _ => []

/-- Model of `CandleAggregator._calculate_atr`: returns 0 for fewer than
`period + 1` candles, otherwise the mean of the last `period` true ranges,
with a (dead, see `c2_counterexample`) fallback to the mean of all true ranges. -/
def calculate_atr (candles : List OHLCV) (period : ℕ) : ℚ :=
  if candles.length < period + 1 then 0
  else
    let true_ranges := trueRanges candles
    if period ≤ true_ranges.length then
      (true_ranges.drop (true_ranges.length - period)).sum / (period : ℚ)
    else if 0 < true_ranges.length then
      true_ranges.sum / (true_ranges.length : ℚ)
    else 0

/-! ## Trade-flow tracker (`src/backend/analytics/trade_flow_tracker.py`) -/

/-- Model of `trade_flow_tracker.Trade`. -/
structure TFTrade where
  timestamp_ms : ℚ
  price : ℚ
  size : ℚ
  side : String
deriving DecidableEq, Repr

/-- Mutable state of `trade_flow_tracker.TradeFlowTracker` together with its
construction-time configuration. -/
structure TradeFlowTracker where
  window_seconds : ℚ
  max_history_seconds : ℚ
  trades : List TFTrade
deriving DecidableEq, Repr

/-- Model of `TradeFlowTracker._cleanup_old_trades`: pop from the left while the
head is older than `now - max_history_seconds`; `now_ms` stands for the wall
clock `time.time() * 1000` the Python reads. -/
def tfCleanup (now_ms : ℚ) (tr : TradeFlowTracker) : TradeFlowTracker :=
  { tr with
    trades :=
      tr.trades.dropWhile
        (fun t => t.timestamp_ms < now_ms - tr.max_history_seconds * 1000) }

/-- Model of `TradeFlowTracker.add_trade`: append, then lazily evict. -/
def tfAddTrade (now_ms : ℚ) (t : TFTrade) (tr : TradeFlowTracker) :
    TradeFlowTracker :=
  tfCleanup now_ms { tr with trades := tr.trades ++ [t] }

/-- A trade queue is monotone when timestamps are pairwise non-decreasing. -/
def TradesMonotone (l : List TFTrade) : Prop :=
  l.Pairwise (fun a b => a.timestamp_ms ≤ b.timestamp_ms)

instance : DecidablePred TradesMonotone := fun l =>
  inferInstanceAs (Decidable (l.Pairwise _))

/-! ## Session/VWAP tracker (`src/backend/session_context.py`) -/

/-- Model of `session_context.Trade` (the VWAP queue entry). -/
structure STrade where
  timestamp_ms : ℚ
  price : ℚ
  size_usd : ℚ
deriving DecidableEq, Repr

/-- Mutable state of `session_context.SessionContextTracker` with its
construction-time configuration. -/
structure SessionTracker where
  session_duration_hours : ℚ
  vwap_window_hours : ℚ
  session_start_ms : Option ℚ
  daily_high : Option ℚ
  daily_low : Option ℚ
  current_price : Option ℚ
  trades : List STrade
deriving DecidableEq, Repr

/-- Model of `SessionContextTracker.reset_session`: reset extremes to the
starting price; the trade queue is deliberately kept for VWAP continuity. -/
def reset_session (timestamp_ms starting_price : ℚ) (st : SessionTracker) :
    SessionTracker :=
  { st with
    session_start_ms := some timestamp_ms
    daily_high := some starting_price
    daily_low := some starting_price
    current_price := some starting_price }

/-- Model of `SessionContextTracker._cleanup_old_trades`: evict from the head
while older than `current_time - vwap_window`. -/
def sessionCleanup (current_time_ms : ℚ) (st : SessionTracker) : SessionTracker :=
  { st with
    trades :=
      st.trades.dropWhile
        (fun t => t.timestamp_ms < current_time_ms - st.vwap_window_hours * 3600 * 1000) }

/-- The body of `SessionContextTracker.add_trade` after the session start has
been set; `s` is the (non-`None`) `session_start_ms` read by the reset check. -/
def sessionAddTradeCore (timestamp_ms price size_usd : ℚ) (st : SessionTracker)
    (s : ℚ) : SessionTracker :=
  let st1 :=
    if st.session_duration_hours ≤ (timestamp_ms - s) / (1000 * 3600) then
      reset_session timestamp_ms price st
    else st
  let high :=
    match st1.daily_high with
    | none => price
    | some h => if h < price then price else h
  let low :=
    match st1.daily_low with
    | none => price
    | some l => if price < l then price else l
  sessionCleanup timestamp_ms
    { st1 with
      daily_high := some high
      daily_low := some low
      current_price := some price
      trades := st1.trades ++ [⟨timestamp_ms, price, size_usd⟩] }

/-- Model of `SessionContextTracker.add_trade`. -/
def sessionAddTrade (timestamp_ms price size_usd : ℚ) (st : SessionTracker) :
    SessionTracker :=
  match st.session_start_ms with
  | none =>
    sessionAddTradeCore timestamp_ms price size_usd
      (reset_session timestamp_ms price st) timestamp_ms
  | some s => sessionAddTradeCore timestamp_ms price size_usd st s

/-! ## Price momentum (`src/backend/price_momentum.py`) -/

/-- Model of `price_momentum.PricePoint`. -/
structure PricePoint where
  timestamp_ms : ℚ
  price : ℚ
deriving DecidableEq, Repr

/-- Model of `price_momentum.MomentumStats`. -/
structure MomentumStats where
  window_seconds : ℚ
  direction : String
  change_percent : ℚ
  latest_price : ℚ
  start_price : ℚ
  latest_timestamp_ms : ℚ
  is_usable : Bool
deriving DecidableEq, Repr

/-- Configuration of `price_momentum.PriceMomentumTracker`. -/
structure MomentumConfig where
  short_window_seconds : ℚ
  long_window_seconds : ℚ
  flat_threshold_percent : ℚ
deriving DecidableEq, Repr

/-- Model of `PriceMomentumTracker._cleanup_old_prices`: retain
`1.1 × max(short, long)` seconds of history, evicting from the head. -/
def momentumCleanup (cfg : MomentumConfig) (now_ms : ℚ)
    (history : List PricePoint) : List PricePoint :=
  history.dropWhile
    (fun p =>
      p.timestamp_ms <
        now_ms - max cfg.short_window_seconds cfg.long_window_seconds * 1000 * (11 / 10))

/-- Model of `PriceMomentumTracker.get_momentum`; `now_ms` stands for the wall
clock `time.time() * 1000`. Note `is_usable` reads `price_history[0]`, the
oldest RETAINED sample, not the oldest sample inside the query window. -/
def get_momentum (cfg : MomentumConfig) (now_ms window_seconds : ℚ)
    (history : List PricePoint) : Option MomentumStats :=
  match momentumCleanup cfg now_ms history with
  | [] => none
  | p0 :: rest =>
    let window_start_ms := now_ms - window_seconds * 1000
    match (p0 :: rest).find? (fun p => window_start_ms ≤ p.timestamp_ms) with
    | none => none
    | some startPoint =>
      let latest := rest.getLastD p0
      let change_percent :=
        if startPoint.price ≠ 0 then
          ((latest.price - startPoint.price) / startPoint.price) * 100
        else 0
      let direction :=
        if |change_percent| < cfg.flat_threshold_percent then "flat"
        else if 0 < change_percent then "up"
        else "down"
      some
        { window_seconds := window_seconds
          direction := direction
          change_percent := change_percent
          latest_price := latest.price
          start_price := startPoint.price
          latest_timestamp_ms := latest.timestamp_ms
          is_usable :=
            decide (window_seconds * 1000 * (1 / 2) ≤
              latest.timestamp_ms - p0.timestamp_ms) }

/-- Formalisation of the CLAIM's wording for C7 (not of the source): the time
span of the samples lying within the window `W`, i.e. latest sample time minus
oldest sample time among samples with `time ≥ now - W*1000` (0 if none). -/
def specWindowSpan (now_ms window_seconds : ℚ) (history : List PricePoint) : ℚ :=
  let inWindow :=
    history.filter (fun p => now_ms - window_seconds * 1000 ≤ p.timestamp_ms)
  match inWindow with
  | [] => 0
  | q :: qs => (qs.getLastD q).timestamp_ms - q.timestamp_ms

/-- Time span actually read by the source's `is_usable`: last minus first
timestamp of the retained (post-cleanup) history, 0 when empty. -/
def retainedSpan (history : List PricePoint) : ℚ :=
  match history with
  | [] => 0
  | p :: ps => (ps.getLastD p).timestamp_ms - p.timestamp_ms

/-! ## Liquidations detector (`src/backend/liquidations.py`) -/

/-- Model of `liquidations.SuspectedLiquidation` (the formatted `reason` string
is omitted: no claim reads it). -/
structure SuspectedLiquidation where
  timestamp_ms : ℚ
  side : String
  total_volume_usd : ℚ
  price : ℚ
  confidence : ℚ
deriving DecidableEq, Repr

/-- A raw trade as stored in `LiquidationsDetector.recent_trades`. -/
structure RecentTrade where
  timestamp_ms : ℚ
  price : ℚ
  size_usd : ℚ
  side : String
deriving DecidableEq, Repr

/-- Mutable state of `liquidations.LiquidationsDetector` with its
construction-time configuration. -/
structure LiquidationsDetector where
  window_seconds : ℚ
  max_history_seconds : ℚ
  large_trade_threshold : ℚ
  cascade_window_ms : ℚ
  suspected_liquidations : List SuspectedLiquidation
  recent_trades : List RecentTrade
deriving DecidableEq, Repr

/-- Model of `LiquidationsDetector._detect_cascade`: scan `recent_trades` from
the newest, stopping at the first trade older than `current - cascade_window`;
a cascade is 5+ same-side trades there totalling at least the threshold. -/
def detect_cascade (st : LiquidationsDetector) (current_timestamp_ms : ℚ)
    (side : String) : Bool :=
  let cutoff_ms := current_timestamp_ms - st.cascade_window_ms
  let scanned :=
    (st.recent_trades.reverse.takeWhile (fun t => ¬ t.timestamp_ms < cutoff_ms)).filter
      (fun t => t.side = side)
  decide (5 ≤ scanned.length ∧
    st.large_trade_threshold ≤ (scanned.map RecentTrade.size_usd).sum)

/-- Model of `LiquidationsDetector._get_cascade_volume`. -/
def get_cascade_volume (st : LiquidationsDetector) (current_timestamp_ms : ℚ)
    (side : String) : ℚ :=
  let cutoff_ms := current_timestamp_ms - st.cascade_window_ms
  (((st.recent_trades.reverse.takeWhile (fun t => ¬ t.timestamp_ms < cutoff_ms)).filter
      (fun t => t.side = side)).map RecentTrade.size_usd).sum

/-- Model of `LiquidationsDetector._cleanup_old_data`; `now_ms` is the wall
clock `time.time() * 1000`. -/
def liqCleanup (now_ms : ℚ) (st : LiquidationsDetector) : LiquidationsDetector :=
  { st with
    suspected_liquidations :=
      st.suspected_liquidations.dropWhile
        (fun l => l.timestamp_ms < now_ms - st.max_history_seconds * 1000)
    recent_trades :=
      st.recent_trades.dropWhile
        (fun t => t.timestamp_ms < now_ms - st.cascade_window_ms * 2) }

/-- Model of `LiquidationsDetector.add_trade`: store the trade, clean up, then
emit at most one suspected liquidation — the large-trade rule first, the
cascade rule only in its `elif` branch. Returns the emitted event (if any)
paired with the new state. -/
def liqAddTrade (now_ms timestamp_ms price size_usd : ℚ) (side : String)
    (st : LiquidationsDetector) :
    Option SuspectedLiquidation × LiquidationsDetector :=
  let st1 :=
    liqCleanup now_ms
      { st with recent_trades := st.recent_trades ++ [⟨timestamp_ms, price, size_usd, side⟩] }
  let liquidation : Option SuspectedLiquidation :=
    if st1.large_trade_threshold ≤ size_usd then
      some
        { timestamp_ms := timestamp_ms
          side := if side = "sell" then "long" else "short"
          total_volume_usd := size_usd
          price := price
          confidence := min (size_usd / (st1.large_trade_threshold * 5)) 1 }
    else if detect_cascade st1 timestamp_ms side then
      some
        { timestamp_ms := timestamp_ms
          side := if side = "sell" then "long" else "short"
          total_volume_usd := get_cascade_volume st1 timestamp_ms side
          price := price
          confidence := 7 / 10 }
    else none
  (liquidation,
   { st1 with
     suspected_liquidations := st1.suspected_liquidations ++ liquidation.toList })

/-! ## Regime detector (`src/backend/regime_detector.py`) -/

/-- Construction-time thresholds of `regime_detector.RegimeDetector`. -/
structure RegimeConfig where
  trend_threshold : ℚ
  strong_trend_threshold : ℚ
  range_threshold : ℚ
  tight_spread_bps : ℚ
  wide_spread_bps : ℚ
  deep_book_usd : ℚ
  thin_book_usd : ℚ
  elevated_liq_count : ℤ
  high_liq_count : ℤ
deriving DecidableEq, Repr

/-- The default thresholds of `RegimeDetector.__init__`. -/
def defaultRegimeConfig : RegimeConfig :=
  { trend_threshold := 1 / 10
    strong_trend_threshold := 1 / 2
    range_threshold := 1 / 20
    tight_spread_bps := 5
    wide_spread_bps := 20
    deep_book_usd := 100000
    thin_book_usd := 20000
    elevated_liq_count := 3
    high_liq_count := 10 }

/-- Model of `RegimeDetector.detect_market_regime`: the ordered rule cascade
(the Python comparison `short_liq_count > long_liq_count * 1.5` is rendered
over `ℚ`; the inner `if` bodies of the `trend_strength > 0.6` block only
`return`, so the fall-through is rendered as one combined condition). -/
def detect_market_regime (cfg : RegimeConfig) (trend_regime : String)
    (trend_strength : ℚ) (vol_regime : String) (buy_ratio : ℚ)
    (liq_count long_liq_count short_liq_count : ℤ) : String :=
  if cfg.high_liq_count ≤ liq_count then
    if (long_liq_count : ℚ) * (3 / 2) < (short_liq_count : ℚ) ∧ trend_regime = "up" then
      "short_squeeze"
    else if (short_liq_count : ℚ) * (3 / 2) < (long_liq_count : ℚ) ∧ trend_regime = "down" then
      "crash"
    else "liquidation_event"
  else if 6 / 10 < trend_strength ∧
      ((trend_regime = "up" ∧ 6 / 10 < buy_ratio) ∨
        (trend_regime = "down" ∧ buy_ratio < 4 / 10)) then
    "trend"
  else if vol_regime = "high" ∧ trend_regime = "range" then "chop"
  else "normal"

/-! ## Analytics engine trade path (`src/backend/api_server.py`) -/

/-- Truncation toward zero, as Python's `int()` on a non-integral number. -/
def pyInt (q : ℚ) : ℤ := if 0 ≤ q then ⌊q⌋ else ⌈q⌉

/-- State of `CandleAggregator` held by the engine (`candles_1m` is a deque with
`maxlen = max_history`). -/
structure CandleAggregatorState where
  max_history : ℕ
  candles_1m : List OHLCV
deriving DecidableEq, Repr

/-- Model of `CandleAggregator.add_candle`: deque append honouring `maxlen`. -/
def aggAddCandle (c : OHLCV) (agg : CandleAggregatorState) :
    CandleAggregatorState :=
  let appended := agg.candles_1m ++ [c]
  { agg with
    candles_1m :=
      if agg.max_history < appended.length then
        appended.drop (appended.length - agg.max_history)
      else appended }

/-- Model of a normalized `TradeEvent` as consumed by
`AnalyticsEngine._process_trades` (`side` is the wire string "B" or "A"). -/
structure TradeEvent where
  time_ms : ℚ
  px : ℚ
  sz : ℚ
  side : String
deriving DecidableEq, Repr

/-- The engine components touched by `AnalyticsEngine._process_trades`. -/
structure EngineState where
  trade_tracker : TradeFlowTracker
  liq_detector : LiquidationsDetector
  session_tracker : SessionTracker
  current_candle_bucket_ms : Option ℚ
  current_candle_open : ℚ
  current_candle_high : ℚ
  current_candle_low : ℚ
  current_candle_close : ℚ
  current_candle_volume : ℚ
  current_candle_trades : ℕ
  candle_aggregator : CandleAggregatorState
deriving DecidableEq, Repr

/-- Model of `AnalyticsEngine._update_candle`: roll the 1m accumulator keyed by
`int(timestamp_ms / 1000 / 60) * 60000`. -/
def updateCandle (timestamp_ms price size : ℚ) (st : EngineState) : EngineState :=
  let bucket_ms : ℚ := (pyInt (timestamp_ms / 1000 / 60) : ℚ) * 60 * 1000
  if st.current_candle_bucket_ms ≠ some bucket_ms then
    let st1 :=
      match st.current_candle_bucket_ms with
      | some prev_bucket =>
        { st with
          candle_aggregator :=
            aggAddCandle
              { timestamp_ms := prev_bucket
                open_ := st.current_candle_open
                high := st.current_candle_high
                low := st.current_candle_low
                close := st.current_candle_close
                volume := st.current_candle_volume
                n_trades := st.current_candle_trades }
              st.candle_aggregator }
      | none => st
    { st1 with
      current_candle_bucket_ms := some bucket_ms
      current_candle_open := price
      current_candle_high := price
      current_candle_low := price
      current_candle_close := price
      current_candle_volume := size
      current_candle_trades := 1 }
  else
    { st with
      current_candle_high := max st.current_candle_high price
      current_candle_low := min st.current_candle_low price
      current_candle_close := price
      current_candle_volume := st.current_candle_volume + size
      current_candle_trades := st.current_candle_trades + 1 }

/-- Model of `AnalyticsEngine._process_trades`: parse the event, and only when
`price > 0 and size > 0` update the trade-flow queue, liquidation detector,
session tracker and current 1-minute candle; `now_ms` is the wall clock used by
the lazy cleanups. -/
def processTrades (now_ms : ℚ) (ev : TradeEvent) (st : EngineState) : EngineState :=
  let price := ev.px
  let size := ev.sz
  let side := if ev.side = "B" then "buy" else "sell"
  let timestamp_ms := ev.time_ms
  if 0 < price ∧ 0 < size then
    let st1 :=
      { st with
        trade_tracker :=
          tfAddTrade now_ms ⟨timestamp_ms, price, size, side⟩ st.trade_tracker }
    let st2 :=
      { st1 with
        liq_detector :=
          (liqAddTrade now_ms timestamp_ms price (price * size) side
            st1.liq_detector).2 }
    let st3 :=
      { st2 with
        session_tracker :=
          sessionAddTrade timestamp_ms price (price * size) st2.session_tracker }
    updateCandle timestamp_ms price size st3
  else st

/-- A concrete engine state used to witness C9. -/
def engineState0 : EngineState :=
  { trade_tracker := ⟨30, 900, []⟩
    liq_detector := ⟨60, 900, 10000, 5000, [], []⟩
    session_tracker := ⟨24, 24, none, none, none, none, []⟩
    current_candle_bucket_ms := none
    current_candle_open := 0
    current_candle_high := 0
    current_candle_low := 0
    current_candle_close := 0
    current_candle_volume := 0
    current_candle_trades := 0
    candle_aggregator := ⟨500, []⟩ }

/-- Modelled from the spec's ordered market-regime rules of §4.10 (first match
wins), written independently of the source's nested control flow: rule 1
short_squeeze, rule 2 crash, rule 3 liquidation_event, rule 4 trend, rule 5
chop, rule 6 normal. -/
def specMarketRegime (cfg : RegimeConfig) (trend_regime : String)
    (trend_strength : ℚ) (vol_regime : String) (buy_ratio : ℚ)
    (liq_count long_liq_count short_liq_count : ℤ) : String :=
  if cfg.high_liq_count ≤ liq_count ∧
      (3 / 2) * (long_liq_count : ℚ) < (short_liq_count : ℚ) ∧ trend_regime = "up" then
    "short_squeeze"
  else if cfg.high_liq_count ≤ liq_count ∧
      (3 / 2) * (short_liq_count : ℚ) < (long_liq_count : ℚ) ∧ trend_regime = "down" then
    "crash"
  else if cfg.high_liq_count ≤ liq_count then "liquidation_event"
  else if 6 / 10 < trend_strength ∧
      ((trend_regime = "up" ∧ 6 / 10 < buy_ratio) ∨
        (trend_regime = "down" ∧ buy_ratio < 4 / 10)) then
    "trend"
  else if vol_regime = "high" ∧ trend_regime = "range" then "chop"
  else "normal"

/-! ## Helper lemmas -/

/-- An element of a list survives `dropWhile` whenever the predicate is false on it. -/
theorem mem_dropWhile_of_mem {α : Type} {p : α → Bool} {l : List α} {t : α}
    (ht : t ∈ l) (hp : p t = false) : t ∈ l.dropWhile p := by
  induction l with
  | nil => cases ht
  | cons a l ih =>
    rw [List.dropWhile_cons]
    rcases List.mem_cons.mp ht with rfl | hmem
    · rw [hp]
      simp
    · cases hpa : p a with
      | true => simp only [if_pos rfl]; exact ih hmem
      | false => simp [hmem]

/-- The base of a `foldr max` is a lower bound of the fold. -/
theorem le_foldr_max (xs : List ℚ) (b : ℚ) : b ≤ xs.foldr max b := by
  induction xs with
  | nil => exact le_refl b
  | cons x xs ih => exact le_trans ih (le_max_right x (xs.foldr max b))

/-- Every member of a list is bounded by its `foldr max`. -/
theorem mem_le_foldr_max {xs : List ℚ} {x : ℚ} (hx : x ∈ xs) (b : ℚ) :
    x ≤ xs.foldr max b := by
  induction xs with
  | nil => cases hx
  | cons y ys ih =>
    rcases List.mem_cons.mp hx with rfl | hmem
    · exact le_max_left x (ys.foldr max b)
    · exact le_trans (ih hmem) (le_max_right y (ys.foldr max b))

/-- The base of a `foldr min` is an upper bound of the fold. -/
theorem foldr_min_le (xs : List ℚ) (b : ℚ) : xs.foldr min b ≤ b := by
  induction xs with
  | nil => exact le_refl b
  | cons x xs ih => exact le_trans (min_le_right x (xs.foldr min b)) ih

/-- A `foldr min` is bounded by every member of the list. -/
theorem foldr_min_le_mem {xs : List ℚ} {x : ℚ} (hx : x ∈ xs) (b : ℚ) :
    xs.foldr min b ≤ x := by
  induction xs with
  | nil => cases hx
  | cons y ys ih =>
    rcases List.mem_cons.mp hx with rfl | hmem
    · exact min_le_left x (ys.foldr min b)
    · exact le_trans (min_le_right y (ys.foldr min b)) (ih hmem)

/-- A `foldl max` dominates its starting accumulator. -/
theorem le_foldl_max (xs : List ℚ) (a : ℚ) : a ≤ xs.foldl max a := by
  induction xs generalizing a with
  | nil => exact le_refl a
  | cons x xs ih => exact le_trans (le_max_left a x) (ih (max a x))

/-- A `foldl max` dominates every member of the list. -/
theorem mem_le_foldl_max {xs : List ℚ} {x : ℚ} (hx : x ∈ xs) (a : ℚ) :
    x ≤ xs.foldl max a := by
  induction xs generalizing a with
  | nil => cases hx
  | cons y ys ih =>
    rcases List.mem_cons.mp hx with rfl | hmem
    · exact le_trans (le_max_right a x) (le_foldl_max ys (max a x))
    · exact ih hmem (max a y)

/-- A `foldl max` is the accumulator or one of the list members. -/
theorem foldl_max_mem (xs : List ℚ) (a : ℚ) :
    xs.foldl max a = a ∨ xs.foldl max a ∈ xs := by
  induction xs generalizing a with
  | nil => exact Or.inl rfl
  | cons x xs ih =>
    rcases ih (max a x) with h | h
    · rcases max_choice a x with hm | hm
      · exact Or.inl (by rw [List.foldl_cons, h, hm])
      · exact Or.inr (by rw [List.foldl_cons, h, hm]; exact List.mem_cons_self _ _)
    · exact Or.inr (List.mem_cons_of_mem _ h)

/-- A `foldl min` is below its starting accumulator. -/
theorem foldl_min_le (xs : List ℚ) (a : ℚ) : xs.foldl min a ≤ a := by
  induction xs generalizing a with
  | nil => exact le_refl a
  | cons x xs ih => exact le_trans (ih (min a x)) (min_le_left a x)

/-- A `foldl min` is below every member of the list. -/
theorem foldl_min_le_mem {xs : List ℚ} {x : ℚ} (hx : x ∈ xs) (a : ℚ) :
    xs.foldl min a ≤ x := by
  induction xs generalizing a with
  | nil => cases hx
  | cons y ys ih =>
    rcases List.mem_cons.mp hx with rfl | hmem
    · exact le_trans (foldl_min_le ys (min a x)) (min_le_right a x)
    · exact ih hmem (min a y)

/-- A `foldl min` is the accumulator or one of the list members. -/
theorem foldl_min_mem (xs : List ℚ) (a : ℚ) :
    xs.foldl min a = a ∨ xs.foldl min a ∈ xs := by
  induction xs generalizing a with
  | nil => exact Or.inl rfl
  | cons x xs ih =>
    rcases ih (min a x) with h | h
    · rcases min_choice a x with hm | hm
      · exact Or.inl (by rw [List.foldl_cons, h, hm])
      · exact Or.inr (by rw [List.foldl_cons, h, hm]; exact List.mem_cons_self _ _)
    · exact Or.inr (List.mem_cons_of_mem _ h)

/-! ## Claim C8 — depth-decay status thresholds -/

/-- C8 counterexample: a bid decay of exactly 5 reports "OK", not "Medium" as the
claim states (the source compares with strict `>`). -/
theorem c8_counterexample :
    (DepthDecayStats.bid_status ⟨5, 5, 15, 0, 0, 0, 0⟩ = "OK") ∧
      ¬ (DepthDecayStats.bid_status ⟨5, 5, 15, 0, 0, 0, 0⟩ = "Medium") := by
  decide

/-- C8 (amended): for every depth-decay percentage d on either side, the status
is OK when d ≤ 5, Medium when 5 < d ≤ 15, High when 15 < d ≤ 30, and Critical
when d > 30; in particular exactly 5 is OK, exactly 15 is Medium and exactly 30
is High. -/
theorem c8_status_thresholds (s : DepthDecayStats) :
    (s.bid_decay_percent ≤ 5 → s.bid_status = "OK") ∧
    (5 < s.bid_decay_percent → s.bid_decay_percent ≤ 15 → s.bid_status = "Medium") ∧
    (15 < s.bid_decay_percent → s.bid_decay_percent ≤ 30 → s.bid_status = "High") ∧
    (30 < s.bid_decay_percent → s.bid_status = "Critical") ∧
    (s.ask_decay_percent ≤ 5 → s.ask_status = "OK") ∧
    (5 < s.ask_decay_percent → s.ask_decay_percent ≤ 15 → s.ask_status = "Medium") ∧
    (15 < s.ask_decay_percent → s.ask_decay_percent ≤ 30 → s.ask_status = "High") ∧
    (30 < s.ask_decay_percent → s.ask_status = "Critical") := by
  unfold DepthDecayStats.bid_status DepthDecayStats.ask_status
  refine ⟨?_, ?_, ?_, ?_, ?_, ?_, ?_, ?_⟩ <;> intros <;> split_ifs <;>
    first | rfl | linarith

/-- C8 witness: the amended boundary facts at concrete decay values. -/
theorem c8_witness :
    DepthDecayStats.bid_status ⟨5, 15, 15, 0, 0, 0, 0⟩ = "OK" ∧
      DepthDecayStats.ask_status ⟨5, 15, 15, 0, 0, 0, 0⟩ = "Medium" :=
  ⟨(c8_status_thresholds ⟨5, 15, 15, 0, 0, 0, 0⟩).1 (by norm_num),
    (c8_status_thresholds ⟨5, 15, 15, 0, 0, 0, 0⟩).2.2.2.2.2.1 (by norm_num) (by norm_num)⟩

/-! ## Claim C2 — ATR with fewer than 15 candles -/

/-- C2 counterexample: with exactly 2 candles the code returns ATR = 0, not the
mean of the available true ranges (here 2): the `len(candles) < period + 1`
guard fires before the mean-of-available fallback can. -/
theorem c2_counterexample :
    calculate_atr [⟨0, 1, 2, 1, 1, 0, 0⟩, ⟨60000, 1, 3, 1, 2, 0, 0⟩] 14 = 0 ∧
    (trueRanges [⟨0, 1, 2, 1, 1, 0, 0⟩, ⟨60000, 1, 3, 1, 2, 0, 0⟩]).sum /
        ((trueRanges [⟨0, 1, 2, 1, 1, 0, 0⟩, ⟨60000, 1, 3, 1, 2, 0, 0⟩]).length : ℚ) = 2 ∧
    (0 : ℚ) ≠ 2 := by
  refine ⟨?_, ?_, by norm_num⟩
  · simp [calculate_atr]
  · norm_num [trueRanges]

/-- C2 (amended): for EVERY list of fewer than `period + 1 = 15` candles — not
only those with fewer than 2 — the computed ATR is 0; the mean-of-available-TRs
fallback in the source is unreachable. -/
theorem c2_atr_short_history (candles : List OHLCV) (h : candles.length < 15) :
    calculate_atr candles 14 = 0 := by
  unfold calculate_atr
  rw [if_pos h]

/-- C2 witness: the amended fact evaluated on a concrete 2-candle history. -/
theorem c2_witness :
    calculate_atr [⟨0, 1, 2, 1, 1, 0, 0⟩, ⟨60000, 1, 3, 1, 2, 0, 0⟩] 14 = 0 :=
  c2_atr_short_history _ (by decide)

/-! ## Claim C9 — boundary rejection of degenerate trades -/

/-- C9: a trade event with size 0 (or any non-positive size) or price ≤ 0 leaves
the whole engine state — trade-flow queue, liquidation detector, session
tracker, and the current 1-minute candle — unchanged. -/
theorem c9_reject_degenerate_trade (now_ms : ℚ) (ev : TradeEvent)
    (st : EngineState) (h : ev.sz = 0 ∨ ev.px ≤ 0) :
    processTrades now_ms ev st = st := by
  unfold processTrades
  rw [if_neg]
  rintro ⟨hpx, hsz⟩
  rcases h with h | h
  · rw [h] at hsz; exact lt_irrefl 0 hsz
  · exact absurd hpx (not_lt.mpr h)

/-- C9 witness: a zero-size trade event leaves a concrete engine state intact. -/
theorem c9_witness :
    processTrades 1000 ⟨1000, 5, 0, "B"⟩ engineState0 = engineState0 :=
  c9_reject_degenerate_trade 1000 ⟨1000, 5, 0, "B"⟩ engineState0 (Or.inl rfl)

/-! ## Claim C6 — market-regime rule order -/

/-- C6: the source's `detect_market_regime` coincides with the spec's ordered
first-match rule list on every input. -/
theorem c6_market_regime_rules (cfg : RegimeConfig) (trend_regime : String)
    (trend_strength : ℚ) (vol_regime : String) (buy_ratio : ℚ)
    (liq_count long_liq_count short_liq_count : ℤ) :
    detect_market_regime cfg trend_regime trend_strength vol_regime buy_ratio
        liq_count long_liq_count short_liq_count =
      specMarketRegime cfg trend_regime trend_strength vol_regime buy_ratio
        liq_count long_liq_count short_liq_count := by
  unfold detect_market_regime specMarketRegime
  have hcomm1 : (long_liq_count : ℚ) * (3 / 2) = (3 / 2) * (long_liq_count : ℚ) :=
    mul_comm _ _
  have hcomm2 : (short_liq_count : ℚ) * (3 / 2) = (3 / 2) * (short_liq_count : ℚ) :=
    mul_comm _ _
  rw [hcomm1, hcomm2]
  split_ifs <;> first | rfl | tauto

/-! ## Claim C4 — candle aggregation -/

/-- C4: for every non-empty chronological group of candles, the aggregate has
open of the first, close of the last, the maximal high, the minimal low, summed
volume and trade count, and the first candle's timestamp. -/
theorem c4_aggregate_candles (c : OHLCV) (cs : List OHLCV) (agg : OHLCV)
    (hagg : aggregate_candles (c :: cs) = some agg) :
    agg.open_ = c.open_ ∧
    agg.close = ((c :: cs).getLast (List.cons_ne_nil c cs)).close ∧
    (∀ x ∈ c :: cs, x.high ≤ agg.high) ∧
    agg.high ∈ (c :: cs).map OHLCV.high ∧
    (∀ x ∈ c :: cs, agg.low ≤ x.low) ∧
    agg.low ∈ (c :: cs).map OHLCV.low ∧
    agg.volume = ((c :: cs).map OHLCV.volume).sum ∧
    agg.n_trades = ((c :: cs).map OHLCV.n_trades).sum ∧
    agg.timestamp_ms = c.timestamp_ms := by
  simp only [aggregate_candles, Option.some.injEq] at hagg
  subst hagg
  refine ⟨rfl, ?_, ?_, ?_, ?_, ?_, rfl, rfl, rfl⟩
  · rw [List.getLast_eq_getLastD]
  · intro x hx
    rcases List.mem_cons.mp hx with rfl | hmem
    · exact le_foldl_max _ _
    · exact mem_le_foldl_max (List.mem_map_of_mem OHLCV.high hmem) _
  · rcases foldl_max_mem (cs.map OHLCV.high) c.high with h | h
    · rw [List.map_cons, h]; exact List.mem_cons_self _ _
    · exact List.mem_cons_of_mem _ h
  · intro x hx
    rcases List.mem_cons.mp hx with rfl | hmem
    · exact foldl_min_le _ _
    · exact foldl_min_le_mem (List.mem_map_of_mem OHLCV.low hmem) _
  · rcases foldl_min_mem (cs.map OHLCV.low) c.low with h | h
    · rw [List.map_cons, h]; exact List.mem_cons_self _ _
    · exact List.mem_cons_of_mem _ h

/-- C4 witness: the aggregation facts checked on a concrete 2-candle group. -/
theorem c4_witness :
    (⟨60000, 10, 13, 9, 12, 8, 6⟩ : OHLCV).open_ = (⟨60000, 10, 12, 10, 11, 3, 2⟩ : OHLCV).open_ ∧
    (⟨60000, 10, 13, 9, 12, 8, 6⟩ : OHLCV).close =
      (([⟨60000, 10, 12, 10, 11, 3, 2⟩, ⟨120000, 11, 13, 9, 12, 5, 4⟩] :
          List OHLCV).getLast (List.cons_ne_nil _ _)).close ∧
    (∀ x ∈ ([⟨60000, 10, 12, 10, 11, 3, 2⟩, ⟨120000, 11, 13, 9, 12, 5, 4⟩] : List OHLCV),
      x.high ≤ (⟨60000, 10, 13, 9, 12, 8, 6⟩ : OHLCV).high) ∧
    (⟨60000, 10, 13, 9, 12, 8, 6⟩ : OHLCV).high ∈
      ([⟨60000, 10, 12, 10, 11, 3, 2⟩, ⟨120000, 11, 13, 9, 12, 5, 4⟩] : List OHLCV).map OHLCV.high ∧
    (∀ x ∈ ([⟨60000, 10, 12, 10, 11, 3, 2⟩, ⟨120000, 11, 13, 9, 12, 5, 4⟩] : List OHLCV),
      (⟨60000, 10, 13, 9, 12, 8, 6⟩ : OHLCV).low ≤ x.low) ∧
    (⟨60000, 10, 13, 9, 12, 8, 6⟩ : OHLCV).low ∈
      ([⟨60000, 10, 12, 10, 11, 3, 2⟩, ⟨120000, 11, 13, 9, 12, 5, 4⟩] : List OHLCV).map OHLCV.low ∧
    (⟨60000, 10, 13, 9, 12, 8, 6⟩ : OHLCV).volume =
      (([⟨60000, 10, 12, 10, 11, 3, 2⟩, ⟨120000, 11, 13, 9, 12, 5, 4⟩] : List OHLCV).map OHLCV.volume).sum ∧
    (⟨60000, 10, 13, 9, 12, 8, 6⟩ : OHLCV).n_trades =
      (([⟨60000, 10, 12, 10, 11, 3, 2⟩, ⟨120000, 11, 13, 9, 12, 5, 4⟩] : List OHLCV).map OHLCV.n_trades).sum ∧
    (⟨60000, 10, 13, 9, 12, 8, 6⟩ : OHLCV).timestamp_ms =
      (⟨60000, 10, 12, 10, 11, 3, 2⟩ : OHLCV).timestamp_ms :=
  c4_aggregate_candles ⟨60000, 10, 12, 10, 11, 3, 2⟩ [⟨120000, 11, 13, 9, 12, 5, 4⟩]
    ⟨60000, 10, 13, 9, 12, 8, 6⟩ (by norm_num [aggregate_candles])

/-! ## Claim C3 — trade-queue timestamp monotonicity -/

/-- C3 counterexample: `add_trade` neither rejects nor sorts an out-of-order
trade; appending a trade older than the tail leaves a non-monotone queue. -/
theorem c3_counterexample :
    ((⟨50000, 1, 1, "sell"⟩ : TFTrade).timestamp_ms <
      (⟨100000, 1, 1, "buy"⟩ : TFTrade).timestamp_ms) ∧
    (tfAddTrade 100000 ⟨50000, 1, 1, "sell"⟩ ⟨30, 900, [⟨100000, 1, 1, "buy"⟩]⟩).trades =
      [⟨100000, 1, 1, "buy"⟩, ⟨50000, 1, 1, "sell"⟩] ∧
    ¬ TradesMonotone
        (tfAddTrade 100000 ⟨50000, 1, 1, "sell"⟩ ⟨30, 900, [⟨100000, 1, 1, "buy"⟩]⟩).trades := by
  refine ⟨by norm_num, ?_, ?_⟩
  · norm_num [tfAddTrade, tfCleanup, List.dropWhile_cons]
  · norm_num [tfAddTrade, tfCleanup, TradesMonotone, List.dropWhile_cons,
      List.pairwise_cons]

/-- C3 (amended): `add_trade` appends unconditionally (eviction only drops
head entries older than the retention cutoff), so the queue stays monotone
exactly when trades arrive in non-decreasing time order: an in-order append
preserves monotonicity. -/
theorem c3_monotone_preserved (now_ms : ℚ) (t : TFTrade) (tr : TradeFlowTracker)
    (hmono : TradesMonotone tr.trades)
    (hord : ∀ t' ∈ tr.trades, t'.timestamp_ms ≤ t.timestamp_ms) :
    TradesMonotone (tfAddTrade now_ms t tr).trades := by
  unfold tfAddTrade tfCleanup TradesMonotone at *
  refine List.Pairwise.sublist (List.dropWhile_sublist _) ?_
  refine List.pairwise_append.mpr ⟨hmono, List.pairwise_singleton _ _, ?_⟩
  intro a ha b hb
  rcases List.mem_singleton.mp hb with rfl
  exact hord a ha

/-- C3 witness: an in-order append on a concrete monotone queue stays monotone. -/
theorem c3_witness :
    TradesMonotone
      (tfAddTrade 200000 ⟨150000, 2, 1, "buy"⟩ ⟨30, 900, [⟨100000, 1, 1, "buy"⟩]⟩).trades :=
  c3_monotone_preserved 200000 ⟨150000, 2, 1, "buy"⟩ ⟨30, 900, [⟨100000, 1, 1, "buy"⟩]⟩
    (by simp [TradesMonotone])
    (by intro t' ht'; rcases List.mem_singleton.mp ht' with rfl; norm_num)

/-! ## Claim C5 — session reset preserves the VWAP queue -/

/-- C5: when a trade arrives at or past the session boundary, the session
resets so that `day_high = day_low = current_price` equal that trade's price,
while the VWAP queue is only appended to and lazily evicted: every stored trade
still within the VWAP window stays in the queue (and the new trade joins it). -/
theorem c5_session_reset (st : SessionTracker) (ts price sz s : ℚ)
    (hs : st.session_start_ms = some s)
    (hdur : st.session_duration_hours ≤ (ts - s) / (1000 * 3600))
    (hw : 0 ≤ st.vwap_window_hours) :
    (sessionAddTrade ts price sz st).session_start_ms = some ts ∧
    (sessionAddTrade ts price sz st).daily_high = some price ∧
    (sessionAddTrade ts price sz st).daily_low = some price ∧
    (sessionAddTrade ts price sz st).current_price = some price ∧
    (sessionAddTrade ts price sz st).trades =
      (st.trades ++ [(⟨ts, price, sz⟩ : STrade)]).dropWhile
        (fun t => t.timestamp_ms < ts - st.vwap_window_hours * 3600 * 1000) ∧
    (⟨ts, price, sz⟩ : STrade) ∈ (sessionAddTrade ts price sz st).trades ∧
    (∀ t ∈ st.trades, ts - st.vwap_window_hours * 3600 * 1000 ≤ t.timestamp_ms →
      t ∈ (sessionAddTrade ts price sz st).trades) := by
  have hcut : ts - st.vwap_window_hours * 3600 * 1000 ≤ ts :=
    sub_le_self ts (mul_nonneg (mul_nonneg hw (by norm_num)) (by norm_num))
  have hmain : sessionAddTrade ts price sz st =
      { st with
        session_start_ms := some ts
        daily_high := some price
        daily_low := some price
        current_price := some price
        trades :=
          (st.trades ++ [(⟨ts, price, sz⟩ : STrade)]).dropWhile
            (fun t => t.timestamp_ms < ts - st.vwap_window_hours * 3600 * 1000) } := by
    clear hcut hw
    obtain ⟨dur, w, sst, dh, dl, cp, trs⟩ := st
    simp only at hs hdur
    subst hs
    unfold sessionAddTrade sessionAddTradeCore
    simp only [if_pos hdur]
    simp [reset_session, sessionCleanup, ite_self]
  refine ⟨by rw [hmain], by rw [hmain], by rw [hmain], by rw [hmain], by rw [hmain], ?_, ?_⟩
  · rw [hmain]
    exact mem_dropWhile_of_mem (List.mem_append_right _ (List.mem_singleton.mpr rfl))
      (decide_eq_false (not_lt.mpr hcut))
  · intro t ht htime
    rw [hmain]
    exact mem_dropWhile_of_mem (List.mem_append_left _ ht)
      (decide_eq_false (not_lt.mpr htime))

/-- C5 witness: a concrete trade exactly at the 24h boundary resets the
extremes to its price while the earlier trade survives in the VWAP queue. -/
theorem c5_witness :
    (sessionAddTrade 86400000 80 5 ⟨24, 24, some 0, some 100, some 90, some 95, [⟨1000, 100, 10⟩]⟩).session_start_ms = some 86400000 ∧
    (sessionAddTrade 86400000 80 5 ⟨24, 24, some 0, some 100, some 90, some 95, [⟨1000, 100, 10⟩]⟩).daily_high = some 80 ∧
    (sessionAddTrade 86400000 80 5 ⟨24, 24, some 0, some 100, some 90, some 95, [⟨1000, 100, 10⟩]⟩).daily_low = some 80 ∧
    (sessionAddTrade 86400000 80 5 ⟨24, 24, some 0, some 100, some 90, some 95, [⟨1000, 100, 10⟩]⟩).current_price = some 80 ∧
    (sessionAddTrade 86400000 80 5 ⟨24, 24, some 0, some 100, some 90, some 95, [⟨1000, 100, 10⟩]⟩).trades =
      (([⟨1000, 100, 10⟩] : List STrade) ++ [(⟨86400000, 80, 5⟩ : STrade)]).dropWhile
        (fun t => t.timestamp_ms < 86400000 - (24 : ℚ) * 3600 * 1000) ∧
    (⟨86400000, 80, 5⟩ : STrade) ∈
      (sessionAddTrade 86400000 80 5 ⟨24, 24, some 0, some 100, some 90, some 95, [⟨1000, 100, 10⟩]⟩).trades ∧
    (∀ t ∈ ([⟨1000, 100, 10⟩] : List STrade),
      (86400000 : ℚ) - 24 * 3600 * 1000 ≤ t.timestamp_ms →
      t ∈ (sessionAddTrade 86400000 80 5 ⟨24, 24, some 0, some 100, some 90, some 95, [⟨1000, 100, 10⟩]⟩).trades) :=
  c5_session_reset ⟨24, 24, some 0, some 100, some 90, some 95, [⟨1000, 100, 10⟩]⟩
    86400000 80 5 0 rfl (by norm_num) (by norm_num)

/-! ## Claim C7 — momentum usability criterion -/

/-- C7 counterexample: the source reports `is_usable = true` although the span
of the samples inside the 5-second window is only 500 ms, far below 50% of the
window — `is_usable` reads the oldest RETAINED sample (here 10 s old), not the
oldest sample within the window. -/
theorem c7_counterexample :
    ((get_momentum ⟨5, 20, 1 / 100⟩ 100000 5
        [⟨90000, 1⟩, ⟨99000, 1⟩, ⟨99500, 2⟩]).map MomentumStats.is_usable = some true) ∧
    specWindowSpan 100000 5 [⟨90000, 1⟩, ⟨99000, 1⟩, ⟨99500, 2⟩] = 500 ∧
    ¬ ((5 : ℚ) * 1000 * (1 / 2) ≤ 500) := by
  refine ⟨?_, ?_, by norm_num⟩
  · norm_num [get_momentum, momentumCleanup, List.dropWhile_cons, List.find?]
  · norm_num [specWindowSpan, List.filter]

/-- C7 (amended): whenever the momentum query returns a result, `is_usable` is
true if and only if the span of the RETAINED history — last minus first sample
of the queue after eviction at `1.1 × max(short, long)` seconds, which may
extend before the query window — is at least 50% of the window. -/
theorem c7_is_usable (cfg : MomentumConfig) (now_ms W : ℚ) (hist : List PricePoint)
    (st : MomentumStats) (h : get_momentum cfg now_ms W hist = some st) :
    st.is_usable = true ↔
      W * 1000 * (1 / 2) ≤ retainedSpan (momentumCleanup cfg now_ms hist) := by
  unfold get_momentum at h
  rcases hcl : momentumCleanup cfg now_ms hist with _ | ⟨p0, rest⟩ <;> rw [hcl] at h
  · exact absurd h (by simp)
  · dsimp only at h
    rcases hf : (p0 :: rest).find? (fun p => now_ms - W * 1000 ≤ p.timestamp_ms) with _ | sp <;>
      rw [hf] at h
    · exact absurd h (by simp)
    · rw [Option.some_inj] at h
      subst h
      simp [retainedSpan, decide_eq_true_eq]

/-- C7 witness: the amended criterion checked on a concrete query. -/
theorem c7_witness :
    ((⟨5, "up", 100, 2, 1, 99500, true⟩ : MomentumStats).is_usable = true ↔
      (5 : ℚ) * 1000 * (1 / 2) ≤
        retainedSpan (momentumCleanup ⟨5, 20, 1 / 100⟩ 100000
          [⟨90000, 1⟩, ⟨99000, 1⟩, ⟨99500, 2⟩])) :=
  c7_is_usable ⟨5, 20, 1 / 100⟩ 100000 5 [⟨90000, 1⟩, ⟨99000, 1⟩, ⟨99500, 2⟩]
    ⟨5, "up", 100, 2, 1, 99500, true⟩
    (by norm_num [get_momentum, momentumCleanup, List.dropWhile_cons, List.find?])

/-! ## Claim C10 — liquidation rule precedence -/

/-- C10: per trade the detector emits at most one suspected liquidation (the
appended history grows by exactly the emitted option); a trade at or above the
large-trade threshold always yields the large-trade event — side long iff it is
a sell, confidence `min(notional/(5·threshold), 1)` — without consulting the
cascade heuristic; a trade below the threshold yields the cascade event with
confidence 0.7 exactly when the cascade test fires, and nothing otherwise. -/
theorem c10_liq_precedence (now_ms ts price size_usd : ℚ) (side : String)
    (st : LiquidationsDetector) :
    (st.large_trade_threshold ≤ size_usd →
      (liqAddTrade now_ms ts price size_usd side st).1 =
        some ⟨ts, if side = "sell" then "long" else "short", size_usd, price,
          min (size_usd / (st.large_trade_threshold * 5)) 1⟩) ∧
    (size_usd < st.large_trade_threshold →
      (liqAddTrade now_ms ts price size_usd side st).1 =
        (if detect_cascade
            (liqCleanup now_ms
              { st with recent_trades := st.recent_trades ++ [⟨ts, price, size_usd, side⟩] })
            ts side then
          some ⟨ts, if side = "sell" then "long" else "short",
            get_cascade_volume
              (liqCleanup now_ms
                { st with recent_trades := st.recent_trades ++ [⟨ts, price, size_usd, side⟩] })
              ts side,
            price, 7 / 10⟩
        else none)) ∧
    (liqAddTrade now_ms ts price size_usd side st).2.suspected_liquidations =
      (liqCleanup now_ms
          { st with recent_trades := st.recent_trades ++ [⟨ts, price, size_usd, side⟩] }).suspected_liquidations
        ++ ((liqAddTrade now_ms ts price size_usd side st).1).toList := by
  refine ⟨?_, ?_, ?_⟩
  · intro h
    simp only [liqAddTrade, liqCleanup]
    rw [if_pos h]
  · intro h
    simp only [liqAddTrade, liqCleanup]
    rw [if_neg (not_le.mpr h)]
  · simp only [liqAddTrade, liqCleanup]

/-- C10 witness: a $50k sell on a fresh detector with a $10k threshold emits
the large-trade long-liquidation event with confidence 1. -/
theorem c10_witness :
    (liqAddTrade 1000 1000 100 50000 "sell" ⟨60, 900, 10000, 5000, [], []⟩).1 =
      some ⟨1000, if "sell" = "sell" then "long" else "short", 50000, 100,
        min ((50000 : ℚ) / (10000 * 5)) 1⟩ :=
  (c10_liq_precedence 1000 1000 100 50000 "sell" ⟨60, 900, 10000, 5000, [], []⟩).1
    (by norm_num)

/-! ## Claim C1 — slippage feasibility and VWAP bounds -/

/-- Levels entered by the slippage walk are levels of the book side. -/
theorem consumedLevels_subset (S : ℚ) :
    ∀ (ls : List SlipLevel) (filled : ℚ), ∀ l ∈ consumedLevels S ls filled, l ∈ ls := by
  intro ls
  induction ls with
  | nil => intro filled l hl; simp [consumedLevels] at hl
  | cons a ls ih =>
    intro filled l hl
    rw [consumedLevels] at hl
    by_cases h : S ≤ filled
    · rw [if_pos h] at hl; cases hl
    · rw [if_neg h] at hl
      rcases List.mem_cons.mp hl with rfl | hmem
      · exact List.mem_cons_self _ _
      · exact List.mem_cons_of_mem _ (ih _ l hmem)

/-- Walk invariant: the filled amount only grows, and the accumulated notional
is squeezed between `lo` and `hi` times the newly filled amount whenever every
consumed level's price lies in `[lo, hi]` and level notionals are nonnegative. -/
theorem slipWalk_bounds (S : ℚ) :
    ∀ (ls : List SlipLevel) (filled notional lo hi : ℚ),
    (∀ l ∈ ls, 0 ≤ l.total_usd) →
    (∀ l ∈ consumedLevels S ls filled, lo ≤ l.price ∧ l.price ≤ hi) →
    filled ≤ (slipWalk S ls filled notional).1 ∧
    lo * ((slipWalk S ls filled notional).1 - filled) + notional ≤
      (slipWalk S ls filled notional).2 ∧
    (slipWalk S ls filled notional).2 ≤
      hi * ((slipWalk S ls filled notional).1 - filled) + notional := by
  intro ls
  induction ls with
  | nil =>
    intro filled notional lo hi _ _
    refine ⟨le_refl _, ?_, ?_⟩ <;> simp [slipWalk]
  | cons a ls ih =>
    intro filled notional lo hi hpos hbound
    rw [slipWalk]
    by_cases h : S ≤ filled
    · rw [if_pos h]
      refine ⟨le_refl _, ?_, ?_⟩ <;> simp
    · rw [if_neg h]
      have hfill0 : 0 ≤ min (S - filled) a.total_usd :=
        le_min (by linarith [not_le.mp h]) (hpos a (List.mem_cons_self _ _))
      have ha : lo ≤ a.price ∧ a.price ≤ hi := by
        apply hbound a
        rw [consumedLevels, if_neg h]
        exact List.mem_cons_self _ _
      have hbound' :
          ∀ l ∈ consumedLevels S ls (filled + min (S - filled) a.total_usd),
            lo ≤ l.price ∧ l.price ≤ hi := by
        intro l hl
        apply hbound l
        rw [consumedLevels, if_neg h]
        exact List.mem_cons_of_mem _ hl
      obtain ⟨h1, h2, h3⟩ :=
        ih (filled + min (S - filled) a.total_usd)
          (notional + min (S - filled) a.total_usd * a.price) lo hi
          (fun l hl => hpos l (List.mem_cons_of_mem _ hl)) hbound'
      have hlp : lo * min (S - filled) a.total_usd ≤ a.price * min (S - filled) a.total_usd :=
        mul_le_mul_of_nonneg_right ha.1 hfill0
      have hhp : a.price * min (S - filled) a.total_usd ≤ hi * min (S - filled) a.total_usd :=
        mul_le_mul_of_nonneg_right ha.2 hfill0
      refine ⟨by linarith, by nlinarith, by nlinarith⟩

/-- Buy-side instance of the walk invariant for `estimate_buy`. -/
theorem estimate_buy_bounds (fee : ℚ) (asks : List SlipLevel) (S best_ask spread : ℚ)
    (hS : 0 < S) (hpos : ∀ l ∈ asks, 0 ≤ l.total_usd)
    (hbest : ∀ l ∈ asks, best_ask ≤ l.price)
    (hfeas : (estimate_buy fee asks S best_ask spread).is_feasible = true) :
    S * (99 / 100) ≤ (slipWalk S asks 0 0).1 ∧
    best_ask ≤ (estimate_buy fee asks S best_ask spread).avg_fill_price ∧
    (estimate_buy fee asks S best_ask spread).avg_fill_price ≤
      ((consumedLevels S asks 0).map SlipLevel.price).foldr max best_ask := by
  by_cases hempty : asks.isEmpty ∨ S ≤ 0
  · rw [estimate_buy, if_pos hempty] at hfeas
    simp [empty_estimate] at hfeas
  · have hfeasP : S * (99 / 100) ≤ (slipWalk S asks 0 0).1 := by
      rw [estimate_buy, if_neg hempty] at hfeas
      dsimp only at hfeas
      exact of_decide_eq_true hfeas
    have hFpos : 0 < (slipWalk S asks 0 0).1 :=
      lt_of_lt_of_le (by positivity) hfeasP
    have hb : ∀ l ∈ consumedLevels S asks 0,
        best_ask ≤ l.price ∧
          l.price ≤ ((consumedLevels S asks 0).map SlipLevel.price).foldr max best_ask := by
      intro l hl
      exact ⟨hbest l (consumedLevels_subset S asks 0 l hl),
        mem_le_foldr_max (List.mem_map_of_mem SlipLevel.price hl) best_ask⟩
    obtain ⟨_, hlo, hhi⟩ :=
      slipWalk_bounds S asks 0 0 best_ask
        (((consumedLevels S asks 0).map SlipLevel.price).foldr max best_ask) hpos hb
    have havg : (estimate_buy fee asks S best_ask spread).avg_fill_price =
        (slipWalk S asks 0 0).2 / (slipWalk S asks 0 0).1 := by
      rw [estimate_buy, if_neg hempty]
      dsimp only
      rw [if_pos hFpos]
    refine ⟨hfeasP, ?_, ?_⟩
    · rw [havg, le_div_iff₀ hFpos]
      nlinarith
    · rw [havg, div_le_iff₀ hFpos]
      nlinarith

/-- Sell-side instance of the walk invariant for `estimate_sell`. -/
theorem estimate_sell_bounds (fee : ℚ) (bids : List SlipLevel) (S best_bid spread : ℚ)
    (hS : 0 < S) (hpos : ∀ l ∈ bids, 0 ≤ l.total_usd)
    (hbest : ∀ l ∈ bids, l.price ≤ best_bid)
    (hfeas : (estimate_sell fee bids S best_bid spread).is_feasible = true) :
    S * (99 / 100) ≤ (slipWalk S bids 0 0).1 ∧
    ((consumedLevels S bids 0).map SlipLevel.price).foldr min best_bid ≤
      (estimate_sell fee bids S best_bid spread).avg_fill_price ∧
    (estimate_sell fee bids S best_bid spread).avg_fill_price ≤ best_bid := by
  by_cases hempty : bids.isEmpty ∨ S ≤ 0
  · rw [estimate_sell, if_pos hempty] at hfeas
    simp [empty_estimate] at hfeas
  · have hfeasP : S * (99 / 100) ≤ (slipWalk S bids 0 0).1 := by
      rw [estimate_sell, if_neg hempty] at hfeas
      dsimp only at hfeas
      exact of_decide_eq_true hfeas
    have hFpos : 0 < (slipWalk S bids 0 0).1 :=
      lt_of_lt_of_le (by positivity) hfeasP
    have hb : ∀ l ∈ consumedLevels S bids 0,
        ((consumedLevels S bids 0).map SlipLevel.price).foldr min best_bid ≤ l.price ∧
          l.price ≤ best_bid := by
      intro l hl
      exact ⟨foldr_min_le_mem (List.mem_map_of_mem SlipLevel.price hl) best_bid,
        hbest l (consumedLevels_subset S bids 0 l hl)⟩
    obtain ⟨_, hlo, hhi⟩ :=
      slipWalk_bounds S bids 0 0
        (((consumedLevels S bids 0).map SlipLevel.price).foldr min best_bid) best_bid hpos hb
    have havg : (estimate_sell fee bids S best_bid spread).avg_fill_price =
        (slipWalk S bids 0 0).2 / (slipWalk S bids 0 0).1 := by
      rw [estimate_sell, if_neg hempty]
      dsimp only
      rw [if_pos hFpos]
    refine ⟨hfeasP, ?_, ?_⟩
    · rw [havg, le_div_iff₀ hFpos]
      nlinarith
    · rw [havg, div_le_iff₀ hFpos]
      nlinarith

/-- C1: on a book side with nonnegative level notionals whose best price bounds
every level, any feasible slippage estimate filled at least 99% of the request,
and its VWAP lies between the best price and the worst (max for buys, min for
sells) consumed-level price. -/
theorem c1_slippage_estimate :
    (∀ (fee : ℚ) (asks : List SlipLevel) (S best_ask spread : ℚ),
      0 < S → (∀ l ∈ asks, 0 ≤ l.total_usd) → (∀ l ∈ asks, best_ask ≤ l.price) →
      (estimate_buy fee asks S best_ask spread).is_feasible = true →
      S * (99 / 100) ≤ (slipWalk S asks 0 0).1 ∧
      best_ask ≤ (estimate_buy fee asks S best_ask spread).avg_fill_price ∧
      (estimate_buy fee asks S best_ask spread).avg_fill_price ≤
        ((consumedLevels S asks 0).map SlipLevel.price).foldr max best_ask) ∧
    (∀ (fee : ℚ) (bids : List SlipLevel) (S best_bid spread : ℚ),
      0 < S → (∀ l ∈ bids, 0 ≤ l.total_usd) → (∀ l ∈ bids, l.price ≤ best_bid) →
      (estimate_sell fee bids S best_bid spread).is_feasible = true →
      S * (99 / 100) ≤ (slipWalk S bids 0 0).1 ∧
      ((consumedLevels S bids 0).map SlipLevel.price).foldr min best_bid ≤
        (estimate_sell fee bids S best_bid spread).avg_fill_price ∧
      (estimate_sell fee bids S best_bid spread).avg_fill_price ≤ best_bid) :=
  ⟨fun fee asks S best_ask spread hS hpos hbest hfeas =>
      estimate_buy_bounds fee asks S best_ask spread hS hpos hbest hfeas,
    fun fee bids S best_bid spread hS hpos hbest hfeas =>
      estimate_sell_bounds fee bids S best_bid spread hS hpos hbest hfeas⟩

/-- C1 witness: a feasible $150 buy against a concrete two-level ask book. -/
theorem c1_witness :
    ((150 : ℚ) * (99 / 100) ≤
      (slipWalk 150 [⟨100, 1, 100⟩, ⟨101, 1, 101⟩] 0 0).1) ∧
    (100 : ℚ) ≤
      (estimate_buy (28 / 10) [⟨100, 1, 100⟩, ⟨101, 1, 101⟩] 150 100 1).avg_fill_price ∧
    (estimate_buy (28 / 10) [⟨100, 1, 100⟩, ⟨101, 1, 101⟩] 150 100 1).avg_fill_price ≤
      ((consumedLevels 150 [⟨100, 1, 100⟩, ⟨101, 1, 101⟩] 0).map SlipLevel.price).foldr
        max 100 :=
  c1_slippage_estimate.1 (28 / 10) [⟨100, 1, 100⟩, ⟨101, 1, 101⟩] 150 100 1
    (by norm_num) (by decide) (by decide)
    (by norm_num [estimate_buy, slipWalk])

end HLDash
